import Mathlib

/-!
Shallow embedding of the `tgo-workflow` execution engine
(`app/engine/context.py`, `app/engine/graph.py`, `app/engine/executor.py`,
`app/engine/nodes/base.py`, `app/engine/nodes/classifier.py`,
`app/services/validation_service.py`) together with theorems settling the
spec claims about it.

Conventions of the embedding:
* Python dicts are association lists built by successive insertion
  (later insertion of an existing key overwrites in place); the execution
  context, which is only ever read pointwise, is a function
  `String → Option Value`.
* Python values that can live in the context / node configs are modelled by
  the scalar `Value` type; Python `None` results of `dict.get` are modelled
  by `Option`.
* `async` plays no role in the claims (nodes of one wavefront run strictly
  sequentially), so node execution is a pure function supplied by an
  `ExecEnv` oracle, returning `Except` for raised exceptions.
* `while` loops become fuel-indexed recursion; the fuel passed by the
  entry points strictly dominates the number of iterations the Python loop
  can perform, so the fuel-exhaustion branch is unreachable there.
-/

deriving instance DecidableEq for Except

namespace TgoWorkflow

/-- Scalar runtime values stored in node configs, run inputs and the
execution context. -/
inductive Value where
  | vStr (s : String)
  | vInt (n : Int)
  | vBool (b : Bool)
deriving DecidableEq, Repr

/-- Python `str()` of a modelled value (used by f-string interpolation and
template substitution). -/
def pyStr : Value → String
  | .vStr s => s
  | .vInt n => toString n
  | .vBool true => "True"
  | .vBool false => "False"

/-- Python `dict.get` on an association list in insertion order: the most
recent binding of a key wins (`d[k] = v` overwrites). -/
def pyGet {α : Type} (l : List (String × α)) (k : String) : Option α :=
  (l.reverse.find? (fun p => p.1 == k)).map (·.2)

/-- Execution context data: the flat `"<reference_key>.<name>" -> value`
store of `ExecutionContext.data`. -/
def Ctx : Type := String → Option Value

/-- `ExecutionContext.get_variable`: `self.data.get(path)`. -/
def Ctx.get_variable (c : Ctx) (path : String) : Option Value := c path

/-- `ExecutionContext.set_variable`: `self.data[f"{reference_key}.{var_name}"] = value`. -/
def Ctx.set_variable (c : Ctx) (reference_key var_name : String) (v : Value) : Ctx :=
  fun p => if p = reference_key ++ "." ++ var_name then some v else c p

/-- `ExecutionContext.set_node_outputs`: `set_variable` for every key of
`outputs`, in iteration order. -/
def Ctx.set_node_outputs (c : Ctx) (reference_key : String) (outputs : List (String × Value)) : Ctx :=
  outputs.foldl (fun c kv => c.set_variable reference_key kv.1 kv.2) c

/-- The empty context. -/
def emptyCtx : Ctx := fun _ => none

/-- Python `str.strip()` restricted to whitespace characters. -/
def pyStrip (s : String) : String :=
  String.mk (((s.data.dropWhile Char.isWhitespace).reverse.dropWhile Char.isWhitespace).reverse)

/-- One attempted match of the regex `\{\{([^}]+)\}\}` immediately after an
opening `"{{"`: the greedy non-empty run of non-`'}'` characters must be
followed by `"}}"`.  Returns the captured path characters and the remainder
after the closing braces. -/
def matchToken (cs : List Char) : Option (List Char × List Char) :=
  let run := cs.takeWhile (fun c => c ≠ '}')
  match cs.dropWhile (fun c => c ≠ '}') with
  | '}' :: '}' :: rest => if run.isEmpty then none else some (run, rest)
  | _ => none

theorem matchToken_length {cs p r} (h : matchToken cs = some (p, r)) :
    r.length + 2 ≤ cs.length := by
  unfold matchToken at h
  split at h
  case h_1 rest heq =>
    dsimp only at h
    split at h
    · exact absurd h (by simp)
    · injection h with h'
      cases h'
      have hsplit := List.takeWhile_append_dropWhile (p := fun c => c ≠ '}') (l := cs)
      rw [heq] at hsplit
      have hlen := congrArg List.length hsplit
      simp only [List.length_append, List.length_cons] at hlen
      omega
  case h_2 => exact absurd h (by simp)

/-- The replacement scan of `re.sub(r"\{\{([^}]+)\}\}", replace, template)`:
left to right; a matched token whose stripped path is bound in the context
is replaced by `str` of its value, otherwise the token is kept verbatim;
positions where no match starts are copied through. -/
def resolveAux (c : Ctx) : List Char → List Char
  | [] => []
  | '{' :: '{' :: rest =>
    match h : matchToken rest with
    | some (path, rest') =>
      match c.get_variable (pyStrip (String.mk path)) with
      | some v => (pyStr v).data ++ resolveAux c rest'
      | none => '{' :: '{' :: (path ++ '}' :: '}' :: resolveAux c rest')
    | none => '{' :: resolveAux c ('{' :: rest)
  | ch :: rest => ch :: resolveAux c rest
termination_by cs => cs.length
decreasing_by
  · simp only [List.length_cons]
    have := matchToken_length h
    omega
  · simp [List.length_cons]
  · simp

/-- `ExecutionContext.resolve_template`. -/
def Ctx.resolve_template (c : Ctx) (template : String) : String :=
  String.mk (resolveAux c template.data)

/-- A workflow node: `{id, type, data}`. -/
structure Node where
  id : String
  type : String
  data : List (String × Value)
deriving DecidableEq, Repr

/-- A workflow edge: `{source, target, sourceHandle?}`. -/
structure Edge where
  source : String
  target : String
  sourceHandle : Option String
deriving DecidableEq, Repr

/-- A workflow document: the `{"nodes": [...], "edges": [...]}` definition. -/
structure WorkflowDoc where
  nodes : List Node
  edges : List Edge
deriving DecidableEq, Repr

/-- Python dict insertion: overwrite in place if the key exists, else append. -/
def pyDictInsert {α : Type} (l : List (String × α)) (k : String) (v : α) :
    List (String × α) :=
  if l.any (·.1 == k) then l.map (fun p => if p.1 == k then (k, v) else p)
  else l ++ [(k, v)]

/-- `{n["id"]: n for n in nodes}`. -/
def nodesDict (nodes : List Node) : List (String × Node) :=
  nodes.foldl (fun d n => pyDictInsert d n.id n) []

/-- `WorkflowGraph.__init__` state: the node dict and the raw edge list;
adjacency structures are recomputed on demand below, which agrees with the
constructor's edge-by-edge appends because list filtering preserves edge
order. -/
structure WorkflowGraph where
  nodes : List (String × Node)
  edges : List Edge
deriving Repr

/-- Build the graph from a document (`WorkflowExecutor.__init__`). -/
def mkGraph (doc : WorkflowDoc) : WorkflowGraph :=
  ⟨nodesDict doc.nodes, doc.edges⟩

/-- Membership test `u in self.adj` (the keys of all adjacency dicts are
exactly the node ids). -/
def WorkflowGraph.hasNode (g : WorkflowGraph) (i : String) : Bool :=
  g.nodes.any (·.1 == i)

/-- An edge whose endpoints are both known node ids (only these are entered
into the adjacency structures). -/
def WorkflowGraph.validEdge (g : WorkflowGraph) (e : Edge) : Bool :=
  g.hasNode e.source && g.hasNode e.target

/-- `self.adj[u]`: targets of valid out-edges of `u`, in edge order. -/
def WorkflowGraph.adj (g : WorkflowGraph) (u : String) : List String :=
  (g.edges.filter (fun e => g.validEdge e && e.source == u)).map (·.target)

/-- `self.rev_adj[v]`: sources of valid in-edges of `v`, in edge order. -/
def WorkflowGraph.rev_adj (g : WorkflowGraph) (v : String) : List String :=
  (g.edges.filter (fun e => g.validEdge e && e.target == v)).map (·.source)

/-- `self.out_edges[u]`: the valid out-edge objects of `u`, in edge order. -/
def WorkflowGraph.out_edges (g : WorkflowGraph) (u : String) : List Edge :=
  g.edges.filter (fun e => g.validEdge e && e.source == u)

/-- `WorkflowGraph.get_node`. -/
def WorkflowGraph.get_node (g : WorkflowGraph) (node_id : String) : Option Node :=
  (g.nodes.find? (·.1 == node_id)).map (·.2)

/-- The node ids in dict (= first-occurrence) order. -/
def WorkflowGraph.node_ids (g : WorkflowGraph) : List String := g.nodes.map (·.1)

/-- The body of Kahn's queue loop shared by `get_topo_sort`: pop the queue
head, decrement the in-degree of each of its `adj` neighbours in order, and
push a neighbour the moment its in-degree reaches zero.  `fuel` strictly
bounds the number of iterations: each node is initially enqueued at most
once and pushed at most once (its in-degree only ever decreases, so it hits
zero at most once), hence `2 * #nodes + 2` iterations can never be
exhausted and the `0` branch is unreachable from the entry points below. -/
def kahnVisit (adj : String → List String) :
    Nat → (String → Int) → List String → List String
  | 0, _, _ => []
  | fuel + 1, indeg, queue =>
    match queue with
    | [] => []
    | curr :: rest =>
      let st := (adj curr).foldl
        (fun (p : (String → Int) × List String) nb =>
          let d := p.1 nb - 1
          (fun x => if x = nb then d else p.1 x,
           if d = 0 then p.2 ++ [nb] else p.2))
        (indeg, ([] : List String))
      curr :: kahnVisit adj fuel st.1 (rest ++ st.2)

/-- `WorkflowGraph.get_topo_sort`: Kahn's algorithm over the valid-edge
adjacency, seeded with the zero-in-degree node ids in dict order. -/
def WorkflowGraph.get_topo_sort (g : WorkflowGraph) : List String :=
  let indeg : String → Int := fun i => ((g.rev_adj i).length : Int)
  let queue := g.node_ids.filter (fun i => (g.rev_adj i).length == 0)
  kahnVisit g.adj (2 * g.node_ids.length + 2) indeg queue

/-- Python truthiness of `handle_id: Optional[str]`: `None` and `""` are
falsy. -/
def pyTruthy : Option String → Bool
  | none => false
  | some s => !s.isEmpty

/-- `WorkflowGraph.get_next_nodes`: filter the out-edges by `sourceHandle`
only when the handle argument is truthy, otherwise return all adjacent
targets. -/
def WorkflowGraph.get_next_nodes (g : WorkflowGraph) (node_id : String)
    (handle_id : Option String) : List String :=
  if pyTruthy handle_id then
    ((g.out_edges node_id).filter (fun e => e.sourceHandle == handle_id)).map (·.target)
  else
    g.adj node_id

/-! ## Orchestrator (`app/engine/executor.py`) -/

/-- `next((n for n in self.graph.nodes.values() if n["type"] == "start"), None)`. -/
def findStart (g : WorkflowGraph) : Option Node :=
  (g.nodes.map (·.2)).find? (fun n => n.type == "start")

/-- `start_node["data"].get("reference_key", "start")`, as the string it
contributes to the seeded keys `f"{ref_key}.{k}"`. -/
def startRefKey (start_node : Node) : String :=
  match pyGet start_node.data "reference_key" with
  | some v => pyStr v
  | none => "start"

/-- `BaseNodeExecutor.__init__`: `self.reference_key = self.config.get("reference_key")`
(no default — a missing key is `None`, which the f-string of
`set_variable` renders as `"None"`). -/
def executorRefKey (node : Node) : String :=
  match pyGet node.data "reference_key" with
  | some v => pyStr v
  | none => "None"

/-- Environment a run executes against: which node types have a registered
executor class, and the outcome of `execute_with_timeout` for a node
(`.error msg` models a raised exception or timeout, `msg` its `str`). -/
structure ExecEnv where
  registered : String → Bool
  exec : String → Node → Ctx → Except String (List (String × Value) × Option String)

/-- One invocation of the `on_node_complete` callback (the `input` and
`duration` arguments carry no claim content and are omitted). -/
structure NodeEvent where
  node_id : String
  node_type : String
  status : String
  output : List (String × Value)
  error : Option String
deriving DecidableEq, Repr

/-- The mutable state of `WorkflowExecutor.run`'s loop: the context, the
`executed_nodes` set (as the list of ids in insertion order), the
`final_output` candidate, and the callback invocations so far. -/
structure RunState where
  ctx : Ctx
  executed : List String
  finalOutput : Option Value
  events : List NodeEvent

/-- The body of `run`'s inner `for node_id in curr_node_ids` loop for one
node id: skip already-executed ids; skip (entirely — no callback, no
`executed_nodes.add`, no successors) ids whose node type has no registered
executor; otherwise execute, record the outcome, invoke the callback, mark
executed, and on success collect the successors for the next wavefront.
The `get_node ... = none` branch is unreachable because every id ever put
in a wavefront is a key of the node dict (Python would raise there). -/
def processNode (env : ExecEnv) (g : WorkflowGraph) (st : RunState)
    (node_id : String) : RunState × List String :=
  if st.executed.contains node_id then (st, [])
  else
    match g.get_node node_id with
    | none => (st, [])
    | some node =>
      if !env.registered node.type then (st, [])
      else
        match env.exec node_id node st.ctx with
        | .ok (outputs, next_handle) =>
          let ctx' := st.ctx.set_node_outputs (executorRefKey node) outputs
          let final' := if node.type == "end" then pyGet outputs "result"
                        else st.finalOutput
          let ev : NodeEvent := ⟨node_id, node.type, "completed", outputs, none⟩
          (⟨ctx', st.executed ++ [node_id], final', st.events ++ [ev]⟩,
           g.get_next_nodes node_id next_handle)
        | .error msg =>
          let ev : NodeEvent := ⟨node_id, node.type, "failed", [], some msg⟩
          (⟨st.ctx, st.executed ++ [node_id], st.finalOutput, st.events ++ [ev]⟩, [])

/-- The inner `for` loop over a whole wavefront: process each id in order,
threading the state and concatenating the collected successor lists
(`next_node_ids.extend(targets)`). -/
def processWavefront (env : ExecEnv) (g : WorkflowGraph) :
    RunState → List String → RunState × List String
  | st, [] => (st, [])
  | st, node_id :: rest =>
    let p := processNode env g st node_id
    let q := processWavefront env g p.1 rest
    (q.1, p.2 ++ q.2)

/-- `list(set(next_node_ids))`: de-duplication.  CPython enumerates the set
in a hash-dependent order; the embedding fixes first-occurrence order, and
every theorem proved below is insensitive to this enumeration order. -/
def pyDedup (seen : List String) : List String → List String
  | [] => []
  | x :: xs =>
    if seen.contains x then pyDedup seen xs else x :: pyDedup (x :: seen) xs

/-- `run`'s outer `while curr_node_ids` loop.  The fuel strictly bounds the
iteration count: every iteration with a non-empty successor list adds at
least one fresh node id to `executed` (only freshly executed nodes
contribute successors), so after at most `#nodes` productive iterations the
loop receives an empty wavefront and stops; hence the `0` branch is
unreachable from `run` below. -/
def runLoop (env : ExecEnv) (g : WorkflowGraph) :
    Nat → RunState → List String → RunState
  | 0, st, _ => st
  | fuel + 1, st, curr =>
    match curr with
    | [] => st
    | _ =>
      let p := processWavefront env g st curr
      runLoop env g fuel p.1 (pyDedup [] p.2)

/-- `mapped_inputs = {f"{ref_key}.{k}": v for k, v in inputs.items()}` made
into the initial `ExecutionContext`. -/
def seedCtx (ref_key : String) (inputs : List (String × Value)) : Ctx :=
  inputs.foldl
    (fun c kv => fun p => if p = ref_key ++ "." ++ kv.1 then some kv.2 else c p)
    emptyCtx

/-- The `"result"` output of the last successfully executed End node in a
callback trace, if any (the observable the returned `final_output` tracks). -/
def lastEndResult (events : List NodeEvent) : Option Value :=
  match (events.filter
      (fun e => e.node_type == "end" && e.status == "completed")).getLast? with
  | some e => pyGet e.output "result"
  | none => none

/-- `WorkflowExecutor.run`.  Returns the `on_node_complete` invocations (in
order) paired with either the returned `final_output` or the raised
error: `ValueError("Start node not found")` when no node has type
`"start"`, `IndexError` (message `"list index out of range"`) when
`topo_order` is empty.  Both raises happen before any node executes, so
their event trace is empty. -/
def run (env : ExecEnv) (doc : WorkflowDoc) (inputs : List (String × Value)) :
    List NodeEvent × Except String (Option Value) :=
  let g := mkGraph doc
  match findStart g with
  | none => ([], .error "Start node not found")
  | some start_node =>
    let ctx0 := seedCtx (startRefKey start_node) inputs
    match g.get_topo_sort.head? with
    | none => ([], .error "list index out of range")
    | some first =>
      let final := runLoop env g (doc.nodes.length + 2) ⟨ctx0, [], none, []⟩ [first]
      (final.events, .ok final.finalOutput)

/-! ## Timeout wrapper (`app/engine/nodes/base.py`) -/

/-- The two kinds of failure `execute_with_timeout` can surface:
the `TimeoutError` it raises itself on expiry, and any other exception
propagating out of `execute`. -/
inductive NodeError where
  | nodeTimeout (msg : String)
  | execFailure (msg : String)
deriving DecidableEq, Repr

/-- `self.config.get("timeout", self.DEFAULT_TIMEOUT)` where
`DEFAULT_TIMEOUT = 60` and `self.config` is the node's `data` mapping. -/
def configTimeout (node : Node) : Value :=
  (pyGet node.data "timeout").getD (.vInt 60)

/-- How awaiting `execute` under `asyncio.wait_for` ends, supplied as an
oracle (real elapsed time is outside the embedding): it returns, it raises,
or the deadline expires first. -/
inductive ExecOutcome where
  | completes (outputs : List (String × Value)) (handle : Option String)
  | raises (msg : String)
  | expires
deriving Repr

/-- `BaseNodeExecutor.execute_with_timeout`: pass results and exceptions
through; convert `asyncio.TimeoutError` into
`TimeoutError(f"Node {self.node_id} execution timed out after {timeout}s")`. -/
def execute_with_timeout (node_id : String) (node : Node) (outcome : ExecOutcome) :
    Except NodeError (List (String × Value) × Option String) :=
  match outcome with
  | .completes outputs handle => .ok (outputs, handle)
  | .raises msg => .error (.execFailure msg)
  | .expires =>
    .error (.nodeTimeout
      ("Node " ++ node_id ++ " execution timed out after "
        ++ pyStr (configTimeout node) ++ "s"))

/-! ## JSON (model of Python `json.loads` as used by the classifier) -/

/-- JSON values.  Number tokens keep their lexeme: the classifier only ever
compares parsed values against category-id strings, so numeric magnitude is
irrelevant. -/
inductive Json where
  | jNull
  | jBool (b : Bool)
  | jNum (lexeme : String)
  | jStr (s : String)
  | jArr (items : List Json)
  | jObj (fields : List (String × Json))

/-- JSON insignificant whitespace. -/
def jsonWs : Char → Bool
  | ' ' | '\t' | '\n' | '\r' => true
  | _ => false

/-- One or more decimal digits. -/
def parseDigits (cs : List Char) : Option (List Char × List Char) :=
  let ds := cs.takeWhile Char.isDigit
  if ds.isEmpty then none else some (ds, cs.dropWhile Char.isDigit)

/-- The JSON number grammar `-?(0|[1-9][0-9]*)(\.[0-9]+)?([eE][+-]?[0-9]+)?`,
matched greedily exactly as Python's `NUMBER_RE`; returns the lexeme. -/
def parseNumber (cs : List Char) : Option (List Char × List Char) :=
  let (sign, cs1) := match cs with
    | '-' :: t => (['-'], t)
    | _ => (([] : List Char), cs)
  match cs1 with
  | '0' :: t => some (sign ++ ['0'], t)
  | c :: _ =>
    if c.isDigit then (parseDigits cs1).map (fun p => (sign ++ p.1, p.2)) else none
  | [] => none

/-- The optional fraction and exponent parts following an integer part. -/
def parseFracExp (cs : List Char) : List Char × List Char :=
  let (frac, cs1) := match cs with
    | '.' :: t =>
      match parseDigits t with
      | some (ds, rest) => ('.' :: ds, rest)
      | none => (([] : List Char), cs)
    | _ => (([] : List Char), cs)
  let (ex, cs2) := match cs1 with
    | c :: t =>
      if c == 'e' || c == 'E' then
        let (sgn, t1) := match t with
          | s :: t' => if s == '+' || s == '-' then ([s], t') else (([] : List Char), t)
          | [] => (([] : List Char), t)
        match parseDigits t1 with
        | some (ds, rest) => (c :: (sgn ++ ds), rest)
        | none => (([] : List Char), cs1)
      else (([] : List Char), cs1)
    | [] => (([] : List Char), cs1)
  (frac ++ ex, cs2)

/-- Hex digit value, by ASCII code ranges: `0-9` are 48..57, `a-f` are
97..102, `A-F` are 65..70. -/
def hexVal (c : Char) : Option Nat :=
  let n := c.toNat
  if 48 ≤ n && n ≤ 57 then some (n - 48)
  else if 97 ≤ n && n ≤ 102 then some (n - 87)
  else if 65 ≤ n && n ≤ 70 then some (n - 55)
  else none

/-- Four hex digits. -/
def parseHex4 (cs : List Char) : Option (Nat × List Char) :=
  match cs with
  | a :: b :: c :: d :: rest =>
    match hexVal a, hexVal b, hexVal c, hexVal d with
    | some x, some y, some z, some w => some (((x * 16 + y) * 16 + z) * 16 + w, rest)
    | _, _, _, _ => none
  | _ => none

/-- The body of a JSON string after the opening quote, in strict mode:
unescaped control characters are rejected; `\uXXXX` escapes combine
surrogate pairs (a lone surrogate, which Python would keep as an unpaired
code unit, has no `Char` representative and is rejected — no claim input
exercises this corner). -/
def parseStringBody : Nat → List Char → Option (List Char × List Char)
  | 0, _ => none
  | _ + 1, [] => none
  | fuel + 1, c :: rest =>
    if c == '"' then some ([], rest)
    else if c == '\\' then
      match rest with
      | [] => none
      | e :: rest' =>
        let simpleEsc : Option Char :=
          if e == '"' then some '"' else if e == '\\' then some '\\'
          else if e == '/' then some '/' else if e == 'b' then some (Char.ofNat 8)
          else if e == 'f' then some (Char.ofNat 12) else if e == 'n' then some '\n'
          else if e == 'r' then some '\r' else if e == 't' then some '\t' else none
        match simpleEsc with
        | some ch =>
          (parseStringBody fuel rest').map (fun p => (ch :: p.1, p.2))
        | none =>
          if e == 'u' then
            match parseHex4 rest' with
            | none => none
            | some (n, rest2) =>
              if 0xD800 ≤ n && n ≤ 0xDBFF then
                match rest2 with
                | '\\' :: 'u' :: rest3 =>
                  match parseHex4 rest3 with
                  | some (m, rest4) =>
                    if 0xDC00 ≤ m && m ≤ 0xDFFF then
                      let code := 0x10000 + (n - 0xD800) * 0x400 + (m - 0xDC00)
                      (parseStringBody fuel rest4).map (fun p => (Char.ofNat code :: p.1, p.2))
                    else none
                  | none => none
                | _ => none
              else if 0xDC00 ≤ n && n ≤ 0xDFFF then none
              else (parseStringBody fuel rest2).map (fun p => (Char.ofNat n :: p.1, p.2))
          else none
    else if c.toNat < 0x20 then none
    else (parseStringBody fuel rest).map (fun p => (c :: p.1, p.2))

mutual

/-- `json.loads`-style value parser (strict mode, default `parse_constant`,
so the literals `NaN`, `Infinity` and `-Infinity` are accepted). -/
def parseJsonValue : Nat → List Char → Option (Json × List Char)
  | 0, _ => none
  | fuel + 1, cs =>
    match cs.dropWhile jsonWs with
    | [] => none
    | c :: rest =>
      if c == 'n' then
        match rest with
        | 'u' :: 'l' :: 'l' :: r => some (.jNull, r)
        | _ => none
      else if c == 't' then
        match rest with
        | 'r' :: 'u' :: 'e' :: r => some (.jBool true, r)
        | _ => none
      else if c == 'f' then
        match rest with
        | 'a' :: 'l' :: 's' :: 'e' :: r => some (.jBool false, r)
        | _ => none
      else if c == 'N' then
        match rest with
        | 'a' :: 'N' :: r => some (.jNum "NaN", r)
        | _ => none
      else if c == 'I' then
        match rest with
        | 'n' :: 'f' :: 'i' :: 'n' :: 'i' :: 't' :: 'y' :: r => some (.jNum "Infinity", r)
        | _ => none
      else if c == '-' && rest.head? == some 'I' then
        match rest with
        | 'I' :: 'n' :: 'f' :: 'i' :: 'n' :: 'i' :: 't' :: 'y' :: r =>
          some (.jNum "-Infinity", r)
        | _ => none
      else if c == '"' then
        (parseStringBody (rest.length + 1) rest).map
          (fun p => (.jStr (String.mk p.1), p.2))
      else if c == '[' then
        match rest.dropWhile jsonWs with
        | ']' :: r => some (.jArr [], r)
        | _ =>
          (parseJsonArrayItems fuel rest).map (fun p => (.jArr p.1, p.2))
      else if c == '{' then
        match rest.dropWhile jsonWs with
        | '}' :: r => some (.jObj [], r)
        | _ =>
          (parseJsonObjectItems fuel rest).map (fun p => (.jObj p.1, p.2))
      else
        match parseNumber (c :: rest) with
        | some (intPart, cs1) =>
          let p := parseFracExp cs1
          some (.jNum (String.mk (intPart ++ p.1)), p.2)
        | none => none

/-- Array elements after `[` (non-empty case), separated by `,`,
terminated by `]`. -/
def parseJsonArrayItems : Nat → List Char → Option (List Json × List Char)
  | 0, _ => none
  | fuel + 1, cs =>
    match parseJsonValue fuel cs with
    | none => none
    | some (v, cs1) =>
      match cs1.dropWhile jsonWs with
      | ',' :: cs2 =>
        (parseJsonArrayItems fuel cs2).map (fun p => (v :: p.1, p.2))
      | ']' :: cs2 => some ([v], cs2)
      | _ => none

/-- Object members after `{` (non-empty case): `"key" : value`, separated
by `,`, terminated by `}`. -/
def parseJsonObjectItems : Nat → List Char → Option (List (String × Json) × List Char)
  | 0, _ => none
  | fuel + 1, cs =>
    match cs.dropWhile jsonWs with
    | '"' :: cs1 =>
      match parseStringBody (cs1.length + 1) cs1 with
      | none => none
      | some (key, cs2) =>
        match cs2.dropWhile jsonWs with
        | ':' :: cs3 =>
          match parseJsonValue fuel cs3 with
          | none => none
          | some (v, cs4) =>
            match cs4.dropWhile jsonWs with
            | ',' :: cs5 =>
              (parseJsonObjectItems fuel cs5).map
                (fun p => ((String.mk key, v) :: p.1, p.2))
            | '}' :: cs5 => some ([(String.mk key, v)], cs5)
            | _ => none
        | _ => none
    | _ => none

end

/-- `json.loads`: parse one value and require only whitespace after it. -/
def json_loads (s : String) : Option Json :=
  match parseJsonValue (2 * s.length + 2) s.data with
  | some (v, rest) => if (rest.dropWhile jsonWs).isEmpty then some v else none
  | none => none

/-! ## Classifier node (`app/engine/nodes/classifier.py`) -/

/-- A configured category; the `description` field only feeds the LLM
prompt and plays no part in the claims. -/
structure Category where
  id : String
  name : String
deriving DecidableEq, Repr

/-- `re.search(r'\{.*\}', response, re.DOTALL)`: with `.` matching
newlines and `.*` greedy, the match (when it exists) runs from the first
`'{'` of the response to the last `'}'` after it — which is the last
`'}'` of the whole response. -/
def extract_json_span (s : String) : Option String :=
  let cs := s.data
  match cs.findIdx? (· == '{'), cs.reverse.findIdx? (· == '}') with
  | some i, some rj =>
    let j := cs.length - 1 - rj
    if i < j then some (String.mk ((cs.drop i).take (j - i + 1))) else none
  | _, _ => none

/-- Python `==` between a category id string and a parsed JSON value
(`c["id"] == category_id`): only equal strings compare equal. -/
def pyEqStrJson (s : String) (j : Json) : Bool :=
  match j with
  | .jStr t => s == t
  | _ => false

/-- The `category_id` value the classifier ends up comparing against (for
a non-empty category list headed by `c0`): the span matched by the regex is
fed to `json.loads` and `data.get("category_id")` is taken from the
resulting object; if the regex finds no span or `json.loads` raises, the
`except`/`else` fallbacks substitute `categories[0]["id"]`.  A successful
parse of a span (which starts with a brace) is necessarily an object, so
the non-object arm is unreachable. -/
def classifierCategoryId (c0 : Category) (response : String) : Option Json :=
  match extract_json_span response with
  | some span =>
    match json_loads span with
    | some (.jObj fields) => pyGet fields "category_id"
    | some _ => none
    | none => some (.jStr c0.id)
  | none => some (.jStr c0.id)

/-- `ClassifierNodeExecutor.execute` downstream of the LLM call: `response`
is the oracle completion text.  Returns the outputs mapping (values are
`Option` because the empty-categories guard emits Python `None`s) and the
branch handle: `next((c for c in categories if c["id"] == category_id),
categories[0])` picks the matched category, whose id and name are emitted
and whose id is the branch handle. -/
def classifier_execute (categories : List Category) (response : String) :
    List (String × Option Value) × Option String :=
  match categories with
  | [] => ([("category_id", none), ("category_name", none)], none)
  | c0 :: _ =>
    let matched := (categories.find? (fun c =>
      match classifierCategoryId c0 response with
      | some j => pyEqStrJson c.id j
      | none => false)).getD c0
    ([("category_id", some (.vStr matched.id)),
      ("category_name", some (.vStr matched.name))],
     some matched.id)

/-! ## Validation service (`app/services/validation_service.py`) -/

/-- `u in adj` for the validation dicts, whose keys are the node ids. -/
def knownId (nodes : List Node) (i : String) : Bool := nodes.any (·.id == i)

/-- The adjacency the validator builds: only edges with two known endpoints
are entered, appended in edge order. -/
def valAdj (doc : WorkflowDoc) (u : String) : List String :=
  (doc.edges.filter (fun e =>
    knownId doc.nodes e.source && knownId doc.nodes e.target && e.source == u)).map (·.target)

/-- The validator's reverse adjacency (valid edges only). -/
def valRevAdj (doc : WorkflowDoc) (v : String) : List String :=
  (doc.edges.filter (fun e =>
    knownId doc.nodes e.source && knownId doc.nodes e.target && e.target == v)).map (·.source)

/-- The validator's `while queue` reachability loop: pop, and on first
visit record the node and enqueue its neighbours.  The fuel strictly bounds
the iterations (each pop consumes one queue entry; entries ever enqueued
are bounded by the seed plus one push per valid edge out of a first-visited
node), so the `0` branch is unreachable from `validate_workflow` below. -/
def bfsLoop (adjf : String → List String) :
    Nat → List String → List String → List String
  | 0, _, visited => visited
  | fuel + 1, queue, visited =>
    match queue with
    | [] => visited
    | curr :: rest =>
      if visited.contains curr then bfsLoop adjf fuel rest visited
      else bfsLoop adjf fuel (rest ++ adjf curr) (visited ++ [curr])

/-- The validator's initial `in_degree`: `{n["id"]: 0 for n in nodes}` then
`+= 1` for every edge whose **target** is a known id — the edge's source is
not checked here, unlike the adjacency construction.  (Queried only at
known ids, where it equals the number of edges targeting the id.) -/
def valInDegreeInit (doc : WorkflowDoc) : String → Int :=
  fun i => ((doc.edges.filter (fun e => e.target == i)).length : Int)

/-- The validator's Kahn loop, counting `topo_visited`: pop, increment the
count, decrement each `adj` neighbour's in-degree and push it when it
reaches zero.  Fuel as in `kahnVisit`. -/
def kahnCountLoop (adjf : String → List String) :
    Nat → (String → Int) → List String → Nat → Nat
  | 0, _, _, acc => acc
  | fuel + 1, indeg, queue, acc =>
    match queue with
    | [] => acc
    | curr :: rest =>
      let st := (adjf curr).foldl
        (fun (p : (String → Int) × List String) nb =>
          let d := p.1 nb - 1
          (fun x => if x = nb then d else p.1 x,
           if d = 0 then p.2 ++ [nb] else p.2))
        (indeg, ([] : List String))
      kahnCountLoop adjf fuel st.1 (rest ++ st.2) (acc + 1)

/-- `topo_visited` as computed by step 5 of `validate_workflow`: Kahn's
algorithm seeded with the known ids of zero in-degree in dict order, using
`valInDegreeInit` (all edges with a known target) for the counts but
`valAdj` (valid edges only) for the decrements. -/
def kahnProcessedCount (doc : WorkflowDoc) : Nat :=
  let queue := (nodesDict doc.nodes).map (·.1) |>.filter
    (fun i => valInDegreeInit doc i == 0)
  kahnCountLoop (valAdj doc) (2 * doc.nodes.length + 2) (valInDegreeInit doc) queue 0

/-- `f"Edge references non-existent node: {u} -> {v}"`. -/
def edgeErrMsg (e : Edge) : String :=
  "Edge references non-existent node: " ++ e.source ++ " -> " ++ e.target

/-- `n.get('data', {}).get('label', n['id'])` as rendered by the f-string. -/
def nodeLabel (n : Node) : String :=
  match pyGet n.data "label" with
  | some v => pyStr v
  | none => n.id

/-- The f-string reading `Node <label> is not reachable from start` with
the label in single quotes. -/
def unreachableStartMsg (n : Node) : String :=
  "Node \x27" ++ nodeLabel n ++ "\x27 is not reachable from start"

/-- The f-string reading `Node <label> cannot reach any end node` with the
label in single quotes. -/
def unreachableEndMsg (n : Node) : String :=
  "Node \x27" ++ nodeLabel n ++ "\x27 cannot reach any end node"

/-- The single circular-dependencies error string. -/
def cycleMsg : String := "Workflow contains circular dependencies"

/-- `ValidationService.validate_workflow`: the error strings in emission
order — start-count check, end-count check, early return when no start
node, edge errors (during adjacency construction), forward-reachability
errors, backward-reachability errors, and the cycle error. -/
def validate_workflow (doc : WorkflowDoc) : List String :=
  let nodes := doc.nodes
  let edges := doc.edges
  let start_nodes := nodes.filter (fun n => n.type == "start")
  let end_nodes := nodes.filter (fun n => n.type == "end")
  let startErrors :=
    if start_nodes.length == 0 then ["Workflow must have a start node"]
    else if 1 < start_nodes.length then ["Workflow cannot have more than one start node"]
    else []
  let endErrors :=
    if end_nodes.length == 0 then ["Workflow must have at least one end node"] else []
  match start_nodes with
  | [] => startErrors ++ endErrors
  | s0 :: _ =>
    let edgeErrors := edges.filterMap (fun e =>
      if knownId nodes e.source && knownId nodes e.target then none
      else some (edgeErrMsg e))
    let visited := bfsLoop (valAdj doc) (nodes.length + edges.length + 2) [s0.id] []
    let unreachErrors := nodes.filterMap (fun n =>
      if visited.contains n.id then none else some (unreachableStartMsg n))
    let visitedEnd := bfsLoop (valRevAdj doc) (nodes.length + edges.length + 2)
      (end_nodes.map (·.id)) []
    let unreachEndErrors := nodes.filterMap (fun n =>
      if visitedEnd.contains n.id then none else some (unreachableEndMsg n))
    let cycleErrors := if kahnProcessedCount doc < nodes.length then [cycleMsg] else []
    startErrors ++ endErrors ++ edgeErrors ++ unreachErrors ++ unreachEndErrors ++ cycleErrors

/-! Helper lemmas about the embedded definitions. -/

theorem mem_pyDictInsert {α : Type} {l : List (String × α)} {k : String} {v : α}
    {p : String × α} (h : p ∈ pyDictInsert l k v) : p ∈ l ∨ p = (k, v) := by
  unfold pyDictInsert at h
  split at h
  · rcases List.mem_map.mp h with ⟨q, hq, hqe⟩
    by_cases hk : q.1 == k
    · right; rw [← hqe]; simp [hk]
    · left; rwa [← hqe, if_neg (by simpa using hk)]
  · rcases List.mem_append.mp h with h' | h'
    · exact Or.inl h'
    · right; simpa using h'

theorem foldl_nodesDict_mem :
    ∀ (l : List Node) (acc : List (String × Node)) (p : String × Node),
      p ∈ l.foldl (fun d n => pyDictInsert d n.id n) acc → p ∈ acc ∨ p.2 ∈ l := by
  intro l
  induction l with
  | nil => intro acc p h; simp only [List.foldl_nil] at h; exact Or.inl h
  | cons n t ih =>
    intro acc p h
    simp only [List.foldl_cons] at h
    rcases ih _ p h with h' | h'
    · rcases mem_pyDictInsert h' with h'' | h''
      · exact Or.inl h''
      · right; rw [h'']; simp
    · right; simp [h']

theorem mem_mkGraph_nodes {doc : WorkflowDoc} {p : String × Node}
    (h : p ∈ (mkGraph doc).nodes) : p.2 ∈ doc.nodes := by
  have := foldl_nodesDict_mem doc.nodes [] p (by simpa [mkGraph, nodesDict] using h)
  simpa using this

theorem findStart_eq_none {doc : WorkflowDoc}
    (h : ∀ n ∈ doc.nodes, n.type ≠ "start") : findStart (mkGraph doc) = none := by
  unfold findStart
  rw [List.find?_eq_none]
  intro n hn
  rcases List.mem_map.mp hn with ⟨p, hp, rfl⟩
  simpa using h _ (mem_mkGraph_nodes hp)

theorem lastEndResult_append_completed_end (evs : List NodeEvent) (ev : NodeEvent)
    (h1 : (ev.node_type == "end") = true) (h2 : ev.status = "completed") :
    lastEndResult (evs ++ [ev]) = pyGet ev.output "result" := by
  unfold lastEndResult
  rw [List.filter_append]
  have hf : List.filter (fun e => e.node_type == "end" && e.status == "completed")
      [ev] = [ev] := by
    simp [List.filter, h1, h2]
  rw [hf, List.getLast?_concat]

theorem lastEndResult_append_other (evs : List NodeEvent) (ev : NodeEvent)
    (h1 : (ev.node_type == "end" && ev.status == "completed") = false) :
    lastEndResult (evs ++ [ev]) = lastEndResult evs := by
  unfold lastEndResult
  rw [List.filter_append]
  have hf : List.filter (fun e => e.node_type == "end" && e.status == "completed")
      [ev] = [] := by
    simp only [List.filter, h1]
  rw [hf, List.append_nil]

theorem processNode_inv (env : ExecEnv) (g : WorkflowGraph) (st : RunState)
    (i : String) (h : st.finalOutput = lastEndResult st.events) :
    (processNode env g st i).1.finalOutput =
      lastEndResult (processNode env g st i).1.events := by
  unfold processNode
  split
  · exact h
  split
  · exact h
  split
  · exact h
  split
  · -- successful execution
    dsimp only
    split
    · -- End node: the new event is the last completed-end event
      rename_i hend
      rw [lastEndResult_append_completed_end _ _ hend rfl]
    · -- non-End node: the filtered trace is unchanged
      rename_i hend
      rw [lastEndResult_append_other]
      · exact h
      · simp only [Bool.and_eq_false_iff]
        left
        simpa using hend
  · -- failed execution: the failed event is filtered out
    dsimp only
    rw [lastEndResult_append_other]
    · exact h
    · simp

theorem processWavefront_inv (env : ExecEnv) (g : WorkflowGraph) :
    ∀ (ids : List String) (st : RunState),
      st.finalOutput = lastEndResult st.events →
      (processWavefront env g st ids).1.finalOutput =
        lastEndResult (processWavefront env g st ids).1.events := by
  intro ids
  induction ids with
  | nil => intro st h; exact h
  | cons x rest ih =>
    intro st h
    simp only [processWavefront]
    exact ih _ (processNode_inv env g st x h)

theorem runLoop_inv (env : ExecEnv) (g : WorkflowGraph) :
    ∀ (fuel : Nat) (st : RunState) (curr : List String),
      st.finalOutput = lastEndResult st.events →
      (runLoop env g fuel st curr).finalOutput =
        lastEndResult (runLoop env g fuel st curr).events := by
  intro fuel
  induction fuel with
  | zero => intro st curr h; exact h
  | succ n ih =>
    intro st curr h
    unfold runLoop
    split
    · exact h
    · exact ih _ _ (processWavefront_inv env g curr st h)

theorem processNode_executed_skip (env : ExecEnv) (g : WorkflowGraph)
    (st : RunState) (i : String) (h : st.executed.contains i = true) :
    processNode env g st i = (st, []) := by
  unfold processNode
  rw [h]
  rfl

theorem processNode_executed_cases (env : ExecEnv) (g : WorkflowGraph)
    (st : RunState) (i : String) :
    (processNode env g st i).1.executed = st.executed ∨
    (processNode env g st i).1.executed = st.executed ++ [i] := by
  unfold processNode
  split
  · exact Or.inl rfl
  split
  · exact Or.inl rfl
  split
  · exact Or.inl rfl
  split
  · exact Or.inr rfl
  · exact Or.inr rfl

theorem processNode_contains_mono (env : ExecEnv) (g : WorkflowGraph)
    (st : RunState) (i x : String) (h : st.executed.contains x = true) :
    (processNode env g st i).1.executed.contains x = true := by
  rcases processNode_executed_cases env g st i with hc | hc <;> rw [hc]
  · exact h
  · rw [List.elem_iff] at h ⊢
    exact List.mem_append_left _ h

theorem processNode_fresh_mono (env : ExecEnv) (g : WorkflowGraph)
    (st : RunState) (i x : String) (hne : i ≠ x)
    (h : st.executed.contains x = false) :
    (processNode env g st i).1.executed.contains x = false := by
  rcases processNode_executed_cases env g st i with hc | hc <;> rw [hc]
  · exact h
  · simp only [List.contains_eq_any_beq, List.any_eq_false] at h ⊢
    intro a ha
    rcases List.mem_append.mp ha with ha' | ha'
    · exact h a ha'
    · simp at ha'
      subst ha'
      simp
      exact fun he => hne he.symm

theorem processNode_count_ne (env : ExecEnv) (g : WorkflowGraph)
    (st : RunState) (i x : String) (hne : i ≠ x) :
    ((processNode env g st i).1.events.countP (fun e => e.node_id == x)) =
      st.events.countP (fun e => e.node_id == x) := by
  unfold processNode
  split
  · rfl
  split
  · rfl
  split
  · rfl
  split
  · dsimp only
    rw [List.countP_append]
    simp [hne]
  · dsimp only
    rw [List.countP_append]
    simp [hne]

theorem processNode_count_self (env : ExecEnv) (g : WorkflowGraph)
    (st : RunState) (i : String) (node : Node)
    (hfresh : st.executed.contains i = false)
    (hnode : g.get_node i = some node)
    (hreg : env.registered node.type = true) :
    ((processNode env g st i).1.events.countP (fun e => e.node_id == i)) =
      st.events.countP (fun e => e.node_id == i) + 1 ∧
    (processNode env g st i).1.executed.contains i = true := by
  unfold processNode
  rw [hfresh, hnode]
  simp only [hreg, Bool.not_true, Bool.false_eq_true, if_false, reduceIte]
  split
  · dsimp only
    constructor
    · rw [List.countP_append]; simp
    · rw [List.elem_iff]; exact List.mem_append_right _ (by simp)
  · dsimp only
    constructor
    · rw [List.countP_append]; simp
    · rw [List.elem_iff]; exact List.mem_append_right _ (by simp)

theorem processWavefront_count_executed (env : ExecEnv) (g : WorkflowGraph)
    (x : String) :
    ∀ (ids : List String) (st : RunState), st.executed.contains x = true →
      ((processWavefront env g st ids).1.events.countP (fun e => e.node_id == x)) =
        st.events.countP (fun e => e.node_id == x) := by
  intro ids
  induction ids with
  | nil => intro st _; rfl
  | cons y rest ih =>
    intro st h
    simp only [processWavefront]
    rcases eq_or_ne y x with rfl | hne
    · rw [processNode_executed_skip env g st y h]
      exact ih st h
    · exact (ih _ (processNode_contains_mono env g st y x h)).trans
        (processNode_count_ne env g st y x hne)

theorem processWavefront_count_fresh (env : ExecEnv) (g : WorkflowGraph)
    (x : String) (node : Node)
    (hnode : g.get_node x = some node) (hreg : env.registered node.type = true) :
    ∀ (ids : List String) (st : RunState), x ∈ ids →
      st.executed.contains x = false →
      ((processWavefront env g st ids).1.events.countP (fun e => e.node_id == x)) =
        st.events.countP (fun e => e.node_id == x) + 1 := by
  intro ids
  induction ids with
  | nil => intro st hmem; exact absurd hmem (by simp)
  | cons y rest ih =>
    intro st hmem hfresh
    simp only [processWavefront]
    rcases eq_or_ne y x with rfl | hne
    · obtain ⟨hcount, hcont⟩ := processNode_count_self env g st y node hfresh hnode hreg
      rw [processWavefront_count_executed env g y rest _ hcont, hcount]
    · have hmem' : x ∈ rest := by
        rcases List.mem_cons.mp hmem with h' | h'
        · exact absurd h'.symm hne
        · exact h'
      rw [ih _ hmem' (processNode_fresh_mono env g st y x hne hfresh),
        processNode_count_ne env g st y x hne]

theorem kahnVisit_nil (adj : String → List String) (fuel : Nat)
    (indeg : String → Int) : kahnVisit adj fuel indeg [] = [] := by
  cases fuel <;> rfl

theorem kahnVisit_head (adj : String → List String) (fuel : Nat)
    (indeg : String → Int) (q : String) (rest : List String) (h : fuel ≠ 0) :
    (kahnVisit adj fuel indeg (q :: rest)).head? = some q := by
  cases fuel with
  | zero => exact absurd rfl h
  | succ n => rfl

theorem topo_head (g : WorkflowGraph) :
    g.get_topo_sort.head? =
      (g.node_ids.filter (fun i => (g.rev_adj i).length == 0)).head? := by
  unfold WorkflowGraph.get_topo_sort
  dsimp only
  cases hq : g.node_ids.filter (fun i => (g.rev_adj i).length == 0) with
  | nil => rw [kahnVisit_nil]
  | cons q rest => rw [kahnVisit_head _ _ _ _ _ (by omega)]; rfl

theorem string_append_left_cancel {a b c : String} (h : a ++ b = a ++ c) :
    b = c := by
  have hd := congrArg String.data h
  rw [String.data_append, String.data_append] at hd
  exact String.ext (List.append_cancel_left hd)

theorem seedCtx_loop (ref_key : String) :
    ∀ (inputs : List (String × Value)) (init : Ctx) (k : String),
      (inputs.foldl
        (fun c kv => fun p => if p = ref_key ++ "." ++ kv.1 then some kv.2 else c p)
        init) (ref_key ++ "." ++ k) =
      (match pyGet inputs k with
       | some v => some v
       | none => init (ref_key ++ "." ++ k)) := by
  intro inputs
  induction inputs with
  | nil => intro init k; rfl
  | cons kv rest ih =>
    intro init k
    simp only [List.foldl_cons]
    rw [ih]
    have hy : pyGet (kv :: rest) k =
        (match pyGet rest k with
         | some v => some v
         | none => if kv.1 == k then some kv.2 else none) := by
      unfold pyGet
      rw [List.reverse_cons, List.find?_append]
      cases hfind : rest.reverse.find? (fun p => p.1 == k) with
      | some q => rfl
      | none => cases hkv : kv.1 == k <;> simp [List.find?, hkv]
    rw [hy]
    cases hr : pyGet rest k with
    | some v => rfl
    | none =>
      cases hkv : kv.1 == k with
      | true =>
        have : kv.1 = k := by simpa using hkv
        subst this
        simp
      | false =>
        have hne : kv.1 ≠ k := by simpa using hkv
        have hcond : ¬(ref_key ++ "." ++ k = ref_key ++ "." ++ kv.1) := by
          intro hc
          exact hne (string_append_left_cancel hc).symm
        simp [hcond]

theorem seedCtx_get (ref_key : String) (inputs : List (String × Value)) (k : String) :
    (seedCtx ref_key inputs).get_variable (ref_key ++ "." ++ k) = pyGet inputs k :=
  (seedCtx_loop ref_key inputs emptyCtx k).trans
    (by cases h : pyGet inputs k <;> simp [h, emptyCtx])

theorem resolveAux_nil (c : Ctx) : resolveAux c [] = [] := by
  rw [resolveAux.eq_def]

theorem resolveAux_cons_ne (c : Ctx) (ch : Char) (cs : List Char)
    (h : ch ≠ '{') : resolveAux c (ch :: cs) = ch :: resolveAux c cs := by
  rw [resolveAux.eq_def]
  split
  · rename_i heq
    exact absurd heq (by simp)
  · rename_i heq
    injection heq with h1 h2
    exact absurd h1 h
  · rename_i heq
    injection heq with h1 h2
    subst h1
    subst h2
    rfl

theorem resolveAux_no_brace (c : Ctx) (pre rest : List Char)
    (hpre : ∀ ch ∈ pre, ch ≠ '{') :
    resolveAux c (pre ++ rest) = pre ++ resolveAux c rest := by
  induction pre with
  | nil => rfl
  | cons ch t ih =>
    rw [List.cons_append, resolveAux_cons_ne c ch _ (hpre ch (by simp)),
      ih (fun x hx => hpre x (by simp [hx])), List.cons_append]

theorem takeWhile_append_all {α : Type} (p : α → Bool) (l1 l2 : List α)
    (h : ∀ a ∈ l1, p a = true) :
    (l1 ++ l2).takeWhile p = l1 ++ l2.takeWhile p := by
  induction l1 with
  | nil => rfl
  | cons x t ih =>
    rw [List.cons_append, List.takeWhile_cons_of_pos (h x (by simp)),
      ih (fun a ha => h a (by simp [ha])), List.cons_append]

theorem dropWhile_append_all {α : Type} (p : α → Bool) (l1 l2 : List α)
    (h : ∀ a ∈ l1, p a = true) :
    (l1 ++ l2).dropWhile p = l2.dropWhile p := by
  induction l1 with
  | nil => rfl
  | cons x t ih =>
    rw [List.cons_append, List.dropWhile_cons_of_pos (h x (by simp))]
    exact ih (fun a ha => h a (by simp [ha]))

theorem matchToken_at_token (p post : List Char) (hp : p ≠ [])
    (hpcl : ∀ ch ∈ p, ch ≠ '}') :
    matchToken (p ++ '}' :: '}' :: post) = some (p, post) := by
  unfold matchToken
  have hall : ∀ a ∈ p, (fun c => decide (c ≠ '}')) a = true := by
    intro a ha
    simpa using hpcl a ha
  rw [takeWhile_append_all _ _ _ hall, dropWhile_append_all _ _ _ hall]
  simp [hp]

theorem resolveAux_token (c : Ctx) (p post : List Char) (hp : p ≠ [])
    (hpcl : ∀ ch ∈ p, ch ≠ '}') :
    resolveAux c ('{' :: '{' :: (p ++ '}' :: '}' :: post)) =
      (match c.get_variable (pyStrip (String.mk p)) with
       | some v => (pyStr v).data ++ resolveAux c post
       | none => '{' :: '{' :: (p ++ '}' :: '}' :: resolveAux c post)) := by
  rw [resolveAux.eq_def]
  split
  · rename_i heq
    exact absurd heq (by simp)
  · rename_i rest heq
    injection heq with h1 h2
    injection h2 with h3 h4
    subst h4
    split
    · rename_i path rest' heq2
      rw [matchToken_at_token p post hp hpcl] at heq2
      injection heq2 with heq3
      injection heq3 with h5 h6
      subst h5
      subst h6
      rfl
    · rename_i heq2
      rw [matchToken_at_token p post hp hpcl] at heq2
      cases heq2
  · rename_i ch rest hcon heq
    injection heq with h1 h2
    exact (hcon (p ++ '}' :: '}' :: post) h1.symm h2.symm).elim

theorem edgeErrMsg_ne_cycle (e : Edge) : edgeErrMsg e ≠ cycleMsg := by
  intro h
  have hd := congrArg String.data h
  unfold edgeErrMsg cycleMsg at hd
  rw [String.data_append, String.data_append, String.data_append,
    List.append_assoc, List.append_assoc] at hd
  rw [show ("Edge references non-existent node: " : String).data =
      'E' :: ("dge references non-existent node: " : String).data from rfl] at hd
  rw [show ("Workflow contains circular dependencies" : String).data =
      'W' :: ("orkflow contains circular dependencies" : String).data from rfl] at hd
  rw [List.cons_append] at hd
  injection hd with h1 _
  exact absurd h1 (by decide)

theorem unreachableStartMsg_ne_cycle (n : Node) :
    unreachableStartMsg n ≠ cycleMsg := by
  intro h
  have hd := congrArg String.data h
  unfold unreachableStartMsg cycleMsg at hd
  rw [String.data_append, String.data_append, List.append_assoc] at hd
  rw [show ("Node \x27" : String).data = 'N' :: ("ode \x27" : String).data from rfl] at hd
  rw [show ("Workflow contains circular dependencies" : String).data =
      'W' :: ("orkflow contains circular dependencies" : String).data from rfl] at hd
  rw [List.cons_append] at hd
  injection hd with h1 _
  exact absurd h1 (by decide)

theorem unreachableEndMsg_ne_cycle (n : Node) :
    unreachableEndMsg n ≠ cycleMsg := by
  intro h
  have hd := congrArg String.data h
  unfold unreachableEndMsg cycleMsg at hd
  rw [String.data_append, String.data_append, List.append_assoc] at hd
  rw [show ("Node \x27" : String).data = 'N' :: ("ode \x27" : String).data from rfl] at hd
  rw [show ("Workflow contains circular dependencies" : String).data =
      'W' :: ("orkflow contains circular dependencies" : String).data from rfl] at hd
  rw [List.cons_append] at hd
  injection hd with h1 _
  exact absurd h1 (by decide)

/-! Claim theorems. -/

/-- C9: `get_next_nodes` with the empty string as branch handle behaves
exactly like `get_next_nodes` with no handle at all — both return all
adjacent targets, with no `sourceHandle` filtering, because the handle
filter is applied only to truthy (non-empty) handle strings. -/
theorem get_next_nodes_empty_handle (g : WorkflowGraph) (node_id : String) :
    g.get_next_nodes node_id (some "") = g.get_next_nodes node_id none ∧
    g.get_next_nodes node_id (some "") = g.adj node_id := by
  have ht : pyTruthy (some "") = false := rfl
  have hn : pyTruthy none = false := rfl
  constructor <;> simp [WorkflowGraph.get_next_nodes, ht, hn]

/-- C10: a document with no node of type `"start"` makes `run` raise
`ValueError("Start node not found")`: the result is that error, no final
output is produced, and the callback trace is empty (the raise happens
before the context is seeded and before any node is executed). -/
theorem run_no_start (env : ExecEnv) (doc : WorkflowDoc)
    (inputs : List (String × Value)) (h : ∀ n ∈ doc.nodes, n.type ≠ "start") :
    run env doc inputs = ([], .error "Start node not found") := by
  simp only [run, findStart_eq_none h]

/-- Witness for C10 at a concrete document with no start node. -/
theorem run_no_start_witness :
    run ⟨fun t => t == "llm", fun _ _ _ => .ok ([], none)⟩
        ⟨[⟨"A", "llm", []⟩, ⟨"B", "end", []⟩], [⟨"A", "B", none⟩]⟩ [] =
      ([], .error "Start node not found") :=
  run_no_start _ _ _ (by decide)

/-- C8: `execute_with_timeout` takes its timeout from the node config field
`"timeout"`, defaulting to 60 when absent; on expiry it raises a
`TimeoutError` — a constructor distinguishable from a generic execution
failure — whose message states the configured timeout value. -/
theorem execute_with_timeout_spec (node_id : String) (node : Node) :
    (pyGet node.data "timeout" = none → configTimeout node = .vInt 60) ∧
    (∀ t, pyGet node.data "timeout" = some t → configTimeout node = t) ∧
    execute_with_timeout node_id node .expires =
      .error (.nodeTimeout ("Node " ++ node_id ++ " execution timed out after "
        ++ pyStr (configTimeout node) ++ "s")) ∧
    (∀ m1 m2, NodeError.nodeTimeout m1 ≠ NodeError.execFailure m2) := by
  refine ⟨fun h => ?_, fun t h => ?_, rfl, fun m1 m2 h => by cases h⟩
  · simp [configTimeout, h]
  · simp [configTimeout, h]

/-- Witness for C8: a node configured with `timeout: 30` expires with the
message naming 30 seconds, and a config without `timeout` defaults to 60. -/
theorem execute_with_timeout_witness :
    configTimeout ⟨"N", "llm", [("timeout", .vInt 30)]⟩ = .vInt 30 ∧
    execute_with_timeout "N" ⟨"N", "llm", [("timeout", .vInt 30)]⟩ .expires =
      .error (.nodeTimeout "Node N execution timed out after 30s") ∧
    configTimeout ⟨"M", "llm", []⟩ = .vInt 60 := by
  have h1 := execute_with_timeout_spec "N" ⟨"N", "llm", [("timeout", .vInt 30)]⟩
  have h2 := execute_with_timeout_spec "M" ⟨"M", "llm", []⟩
  refine ⟨h1.2.1 (.vInt 30) (by decide), ?_, h2.1 (by decide)⟩
  rw [h1.2.2.1]
  decide

/-- C1 (amended): `run` locates the Start node and seeds the context with
the inputs namespaced under its reference key (the seeded context answers
`"<ref_key>.<k>"` with the input bound to `k`), but the initial wavefront
is `[topo_order[0]]` — the first zero-in-degree node id in document
order — which equals `[start_node_id]` only when the Start node is the
first zero-in-degree node of the node list; under that extra hypothesis
execution does begin with wavefront exactly `[start_node_id]`. -/
theorem run_initial_wavefront (env : ExecEnv) (doc : WorkflowDoc)
    (inputs : List (String × Value)) (start_node : Node)
    (hs : findStart (mkGraph doc) = some start_node)
    (hq : ((mkGraph doc).node_ids.filter
        (fun i => ((mkGraph doc).rev_adj i).length == 0)).head? =
          some start_node.id) :
    run env doc inputs =
      (let final := runLoop env (mkGraph doc) (doc.nodes.length + 2)
          ⟨seedCtx (startRefKey start_node) inputs, [], none, []⟩ [start_node.id]
       (final.events, .ok final.finalOutput)) ∧
    (∀ k, (seedCtx (startRefKey start_node) inputs).get_variable
        (startRefKey start_node ++ "." ++ k) = pyGet inputs k) := by
  constructor
  · have hh : (mkGraph doc).get_topo_sort.head? = some start_node.id :=
      (topo_head (mkGraph doc)).trans hq
    simp only [run, hs, hh]
  · intro k
    exact seedCtx_get _ _ _

/-- Counterexample for C1 as stated: in a document whose node list puts a
zero-in-degree `llm` node `A` before the Start node `S` (no edges at all),
the run still finds the Start node `S`, but the only node ever executed is
`A` — the initial wavefront was `["A"]`, not `["S"]`, so the Start node is
not the first node executed. -/
theorem run_initial_wavefront_counterexample :
    findStart (mkGraph ⟨[⟨"A", "llm", []⟩, ⟨"S", "start", []⟩], []⟩) =
      some ⟨"S", "start", []⟩ ∧
    (run ⟨fun t => t == "start" || t == "llm", fun _ _ _ => .ok ([], none)⟩
        ⟨[⟨"A", "llm", []⟩, ⟨"S", "start", []⟩], []⟩ []).1 =
      [⟨"A", "llm", "completed", [], none⟩] ∧
    ("A" : String) ≠ "S" := by
  refine ⟨by decide, by decide, by decide⟩

/-- Witness for C1 (amended): with the Start node first in the node list,
the run of a start-to-end chain starts at `S` and the seeded context
resolves the namespaced input. -/
theorem run_initial_wavefront_witness :
    run ⟨fun t => t == "start" || t == "end", fun _ _ _ => .ok ([], none)⟩
        ⟨[⟨"S", "start", [("reference_key", .vStr "s")]⟩, ⟨"E", "end", []⟩],
         [⟨"S", "E", none⟩]⟩ [("text", .vStr "hello")] =
      (let final := runLoop
          ⟨fun t => t == "start" || t == "end", fun _ _ _ => .ok ([], none)⟩
          (mkGraph ⟨[⟨"S", "start", [("reference_key", .vStr "s")]⟩, ⟨"E", "end", []⟩],
            [⟨"S", "E", none⟩]⟩) (2 + 2)
          ⟨seedCtx (startRefKey ⟨"S", "start", [("reference_key", .vStr "s")]⟩)
            [("text", .vStr "hello")], [], none, []⟩ ["S"]
       (final.events, .ok final.finalOutput)) ∧
    (∀ k, (seedCtx (startRefKey ⟨"S", "start", [("reference_key", .vStr "s")]⟩)
        [("text", .vStr "hello")]).get_variable
          (startRefKey ⟨"S", "start", [("reference_key", .vStr "s")]⟩ ++ "." ++ k) =
        pyGet [("text", .vStr "hello")] k) :=
  run_initial_wavefront _ _ _ ⟨"S", "start", [("reference_key", .vStr "s")]⟩
    (by decide) (by decide)

/-- C5: for every context and any decomposition of a string into a
token-free prefix, a complete token (path nonempty, no closing brace
inside), and a remainder, `resolve_template` copies the prefix, replaces
the token by `str` of the value when the stripped path resolves, leaves
the token verbatim — braces included — when the path is absent, and
continues scanning the remainder. -/
theorem resolve_template_spec (c : Ctx) (pre p post : List Char)
    (hpre : ∀ ch ∈ pre, ch ≠ '{') (hp : p ≠ [])
    (hpcl : ∀ ch ∈ p, ch ≠ '}') :
    c.resolve_template (String.mk (pre ++ '{' :: '{' :: (p ++ '}' :: '}' :: post))) =
      String.mk (pre ++
        (match c.get_variable (pyStrip (String.mk p)) with
         | some v => (pyStr v).data ++ resolveAux c post
         | none => '{' :: '{' :: (p ++ '}' :: '}' :: resolveAux c post))) := by
  unfold Ctx.resolve_template
  show String.mk (resolveAux c (pre ++ '{' :: '{' :: (p ++ '}' :: '}' :: post))) = _
  rw [resolveAux_no_brace c pre _ hpre, resolveAux_token c p post hp hpcl]

/-- Witness for C5: the two examples of the claim — a bound path is
substituted, a missing path is left verbatim with its braces. -/
theorem resolve_template_spec_witness :
    (Ctx.set_variable emptyCtx "user" "name" (.vStr "Alice")).resolve_template
        "Welcome \x7b\x7buser.name\x7d\x7d!" = "Welcome Alice!" ∧
    Ctx.resolve_template emptyCtx "\x7b\x7bmissing.x\x7d\x7d" =
      "\x7b\x7bmissing.x\x7d\x7d" := by
  constructor
  · have h := resolve_template_spec
      (Ctx.set_variable emptyCtx "user" "name" (.vStr "Alice"))
      "Welcome ".data "user.name".data "!".data
      (by decide) (by decide) (by decide)
    have e : ("Welcome \x7b\x7buser.name\x7d\x7d!" : String) =
        String.mk ("Welcome ".data ++ '{' :: '{' ::
          ("user.name".data ++ '}' :: '}' :: "!".data)) := by decide
    rw [e]
    refine h.trans ?_
    rw [show resolveAux (Ctx.set_variable emptyCtx "user" "name" (.vStr "Alice"))
        "!".data = ['!'] from by
      rw [show ("!".data : List Char) = '!' :: [] from rfl,
        resolveAux_cons_ne _ _ _ (by decide), resolveAux_nil]]
    decide
  · have h := resolve_template_spec emptyCtx [] "missing.x".data []
      (by decide) (by decide) (by decide)
    have e : ("\x7b\x7bmissing.x\x7d\x7d" : String) =
        String.mk ([] ++ '{' :: '{' :: ("missing.x".data ++ '}' :: '}' :: [])) := by
      decide
    rw [e]
    refine h.trans ?_
    rw [resolveAux_nil]
    decide

/-- C6 (amended): for every non-empty category list, the classifier
extracts the span from the first `'{'` to the last `'}'` of the response
(the greedy DOTALL regex, not the first well-formed JSON object) and
parses that whole span as JSON; on no span, parse failure, a missing
`category_id`, or an id matching no configured category it falls back to
the first configured category; the emitted outputs are always the matched
category id and name and the branch handle is that id. -/
theorem classifier_spec (c0 : Category) (cats' : List Category)
    (response : String) :
    (∃ m ∈ (c0 :: cats'),
      classifier_execute (c0 :: cats') response =
        ([("category_id", some (.vStr m.id)), ("category_name", some (.vStr m.name))],
         some m.id)) ∧
    ((extract_json_span response = none ∨
      (∃ span, extract_json_span response = some span ∧ json_loads span = none)) →
      classifier_execute (c0 :: cats') response =
        ([("category_id", some (.vStr c0.id)), ("category_name", some (.vStr c0.name))],
         some c0.id)) ∧
    (∀ span fields j m, extract_json_span response = some span →
      json_loads span = some (.jObj fields) →
      pyGet fields "category_id" = some j →
      (c0 :: cats').find? (fun c => pyEqStrJson c.id j) = some m →
      classifier_execute (c0 :: cats') response =
        ([("category_id", some (.vStr m.id)), ("category_name", some (.vStr m.name))],
         some m.id)) ∧
    (∀ span fields, extract_json_span response = some span →
      json_loads span = some (.jObj fields) →
      (pyGet fields "category_id" = none ∨
        (∃ j, pyGet fields "category_id" = some j ∧
          (c0 :: cats').find? (fun c => pyEqStrJson c.id j) = none)) →
      classifier_execute (c0 :: cats') response =
        ([("category_id", some (.vStr c0.id)), ("category_name", some (.vStr c0.name))],
         some c0.id)) := by
  refine ⟨?_, ?_, ?_, ?_⟩
  · cases hf : (c0 :: cats').find? (fun c =>
        match classifierCategoryId c0 response with
        | some j => pyEqStrJson c.id j
        | none => false) with
    | some m =>
      exact ⟨m, List.mem_of_find?_eq_some hf, by simp [classifier_execute, hf]⟩
    | none =>
      exact ⟨c0, by simp, by simp [classifier_execute, hf]⟩
  · intro hfall
    have hcid : classifierCategoryId c0 response = some (.jStr c0.id) := by
      rcases hfall with h | ⟨span, h1, h2⟩
      · simp [classifierCategoryId, h]
      · simp [classifierCategoryId, h1, h2]
    simp only [classifier_execute, hcid]
    rw [List.find?_cons_of_pos _ (by simp [pyEqStrJson])]
    rfl
  · intro span fields j m hspan hloads hget hfind
    have hcid : classifierCategoryId c0 response = some j := by
      simp [classifierCategoryId, hspan, hloads, hget]
    simp only [classifier_execute, hcid]
    rw [hfind]
    rfl
  · intro span fields hspan hloads hrest
    rcases hrest with hget | ⟨j, hget, hfind⟩
    · have hcid : classifierCategoryId c0 response = none := by
        simp [classifierCategoryId, hspan, hloads, hget]
      simp only [classifier_execute, hcid]
      rw [List.find?_eq_none.mpr (by intro x _; simp)]
      rfl
    · have hcid : classifierCategoryId c0 response = some j := by
        simp [classifierCategoryId, hspan, hloads, hget]
      simp only [classifier_execute, hcid]
      rw [hfind]
      rfl

/-- Counterexample for C6 as stated: with categories `[c, a]` and the
response `'\x7b"category_id": "a"\x7d \x7d'`, the first well-formed JSON
object is `\x7b"category_id": "a"\x7d` (it parses, shown below), whose id
`"a"` is a configured category — yet the code matches the greedy span up
to the final stray `'\x7d'`, fails to parse it, and falls back to the
first category `"c"` instead of `"a"`. -/
theorem classifier_counterexample :
    classifier_execute [⟨"c", "C"⟩, ⟨"a", "A"⟩]
        "\x7b\x22category_id\x22: \x22a\x22\x7d \x7d" =
      ([("category_id", some (.vStr "c")), ("category_name", some (.vStr "C"))],
       some "c") ∧
    json_loads "\x7b\x22category_id\x22: \x22a\x22\x7d" =
      some (.jObj [("category_id", .jStr "a")]) ∧
    extract_json_span "\x7b\x22category_id\x22: \x22a\x22\x7d \x7d" =
      some "\x7b\x22category_id\x22: \x22a\x22\x7d \x7d" ∧
    json_loads "\x7b\x22category_id\x22: \x22a\x22\x7d \x7d" = none ∧
    ("c" : String) ≠ "a" :=
  ⟨by decide, rfl, by decide, rfl, by decide⟩

/-- Witness for C6 (amended): a clean single-object response selects the
matching (second) category, and a garbage response falls back to the
first. -/
theorem classifier_spec_witness :
    classifier_execute [⟨"c", "C"⟩, ⟨"a", "A"⟩]
        "sure: \x7b\x22category_id\x22: \x22a\x22\x7d" =
      ([("category_id", some (.vStr "a")), ("category_name", some (.vStr "A"))],
       some "a") ∧
    classifier_execute [⟨"c", "C"⟩, ⟨"a", "A"⟩] "no json here" =
      ([("category_id", some (.vStr "c")), ("category_name", some (.vStr "C"))],
       some "c") := by
  constructor
  · exact (classifier_spec ⟨"c", "C"⟩ [⟨"a", "A"⟩]
      "sure: \x7b\x22category_id\x22: \x22a\x22\x7d").2.2.1
      "\x7b\x22category_id\x22: \x22a\x22\x7d" [("category_id", .jStr "a")]
      (.jStr "a") ⟨"a", "A"⟩ (by decide) rfl rfl (by decide)
  · exact (classifier_spec ⟨"c", "C"⟩ [⟨"a", "A"⟩] "no json here").2.1
      (Or.inl (by decide))

/-- C7 (amended): for a document with exactly one Start node, every edge
with an unknown endpoint gets an edge error and is excluded from the
adjacency used by Kahn, but the in-degree counts feeding Kahn include
every edge whose target is a known node id — even edges with unknown
sources — so the single circular-dependencies error is emitted iff that
mixed computation (`kahnProcessedCount`) processes fewer nodes than the
node count, which can also fire on documents whose valid-edge graph is
acyclic. -/
theorem validate_cycle_condition (doc : WorkflowDoc)
    (hstart : (doc.nodes.filter (fun n => n.type == "start")).length = 1) :
    (cycleMsg ∈ validate_workflow doc ↔
      kahnProcessedCount doc < doc.nodes.length) ∧
    (∀ e ∈ doc.edges,
      (knownId doc.nodes e.source && knownId doc.nodes e.target) = false →
      edgeErrMsg e ∈ validate_workflow doc) := by
  cases hsn : doc.nodes.filter (fun n => n.type == "start") with
  | nil => rw [hsn] at hstart; simp at hstart
  | cons s0 t =>
    have ht : t = [] := by
      rw [hsn] at hstart
      simpa using hstart
    subst ht
    have hval : validate_workflow doc =
        (if (doc.nodes.filter (fun n => n.type == "end")).length == 0
           then ["Workflow must have at least one end node"] else []) ++
        doc.edges.filterMap (fun e =>
          if knownId doc.nodes e.source && knownId doc.nodes e.target then none
          else some (edgeErrMsg e)) ++
        doc.nodes.filterMap (fun n =>
          if (bfsLoop (valAdj doc) (doc.nodes.length + doc.edges.length + 2)
              [s0.id] []).contains n.id then none
          else some (unreachableStartMsg n)) ++
        doc.nodes.filterMap (fun n =>
          if (bfsLoop (valRevAdj doc) (doc.nodes.length + doc.edges.length + 2)
              ((doc.nodes.filter (fun n => n.type == "end")).map (·.id))
              []).contains n.id then none
          else some (unreachableEndMsg n)) ++
        (if kahnProcessedCount doc < doc.nodes.length then [cycleMsg] else []) := by
      unfold validate_workflow
      dsimp only
      rw [hsn]
      simp
    rw [hval]
    constructor
    · constructor
      · intro hmem
        simp only [List.append_assoc, List.mem_append] at hmem
        rcases hmem with h1 | h2 | h3 | h4 | h5
        · revert h1
          split
          · intro h1
            simp at h1
            exact absurd h1 (by decide)
          · intro h1
            simp at h1
        · rw [List.mem_filterMap] at h2
          obtain ⟨e, _, hfe⟩ := h2
          revert hfe
          split
          · intro hfe; cases hfe
          · intro hfe
            injection hfe with hfe'
            exact absurd hfe' (edgeErrMsg_ne_cycle e)
        · rw [List.mem_filterMap] at h3
          obtain ⟨n, _, hfn⟩ := h3
          revert hfn
          split
          · intro hfn; cases hfn
          · intro hfn
            injection hfn with hfn'
            exact absurd hfn' (unreachableStartMsg_ne_cycle n)
        · rw [List.mem_filterMap] at h4
          obtain ⟨n, _, hfn⟩ := h4
          revert hfn
          split
          · intro hfn; cases hfn
          · intro hfn
            injection hfn with hfn'
            exact absurd hfn' (unreachableEndMsg_ne_cycle n)
        · revert h5
          split
          · intro _
            assumption
          · intro h5
            simp at h5
      · intro hlt
        simp only [List.append_assoc, List.mem_append]
        refine Or.inr (Or.inr (Or.inr (Or.inr ?_)))
        rw [if_pos hlt]
        simp
    · intro e he hinv
      simp only [List.append_assoc, List.mem_append]
      refine Or.inr (Or.inl ?_)
      rw [List.mem_filterMap]
      exact ⟨e, he, by rw [hinv]; rfl⟩

/-- Counterexample for C7 as stated: the document `S -> E` plus the edge
`ghost -> E` (unknown source) has exactly one Start node, its valid-edge
graph is acyclic (the valid-edge Kahn run of the graph module sorts all
nodes), yet `validate_workflow` emits the circular-dependencies error,
because the in-degree of `E` also counts the excluded `ghost -> E` edge
and is never decremented to zero. -/
theorem validate_cycle_counterexample :
    cycleMsg ∈ validate_workflow
        ⟨[⟨"S", "start", []⟩, ⟨"E", "end", []⟩],
         [⟨"S", "E", none⟩, ⟨"ghost", "E", none⟩]⟩ ∧
    (mkGraph ⟨[⟨"S", "start", []⟩, ⟨"E", "end", []⟩],
        [⟨"S", "E", none⟩, ⟨"ghost", "E", none⟩]⟩).get_topo_sort.length =
      ([⟨"S", "start", []⟩, ⟨"E", "end", []⟩] : List Node).length ∧
    (([⟨"S", "start", []⟩, ⟨"E", "end", []⟩] : List Node).filter
        (fun n => n.type == "start")).length = 1 :=
  ⟨by decide, by decide, by decide⟩

/-- Witness for C7 (amended) at the ghost-source document: the cycle error
is emitted exactly because `kahnProcessedCount` falls short, and the
invalid edge gets its edge error. -/
theorem validate_cycle_condition_witness :
    cycleMsg ∈ validate_workflow
        ⟨[⟨"S", "start", []⟩, ⟨"E", "end", []⟩],
         [⟨"S", "E", none⟩, ⟨"ghost", "E", none⟩]⟩ ∧
    edgeErrMsg ⟨"ghost", "E", none⟩ ∈ validate_workflow
        ⟨[⟨"S", "start", []⟩, ⟨"E", "end", []⟩],
         [⟨"S", "E", none⟩, ⟨"ghost", "E", none⟩]⟩ := by
  have h := validate_cycle_condition
    ⟨[⟨"S", "start", []⟩, ⟨"E", "end", []⟩],
     [⟨"S", "E", none⟩, ⟨"ghost", "E", none⟩]⟩ (by decide)
  exact ⟨h.1.mpr (by decide), h.2 ⟨"ghost", "E", none⟩ (by decide) (by decide)⟩

/-- C4: whenever `run` returns (rather than raising), the returned value is
exactly the `"result"` output of the last successfully executed End node of
the run — each completed End node overwrites the final-output candidate —
and is `None` when no End node was ever successfully executed (for example
because every path failed before reaching one). -/
theorem run_final_output (env : ExecEnv) (doc : WorkflowDoc)
    (inputs : List (String × Value)) (evs : List NodeEvent) (v : Option Value)
    (h : run env doc inputs = (evs, .ok v)) :
    v = lastEndResult evs := by
  unfold run at h
  dsimp only at h
  split at h
  · simp at h
  · split at h
    · simp at h
    · rw [Prod.mk.injEq] at h
      obtain ⟨he, hv⟩ := h
      injection hv with hv'
      rw [← hv', ← he]
      exact runLoop_inv env _ _ _ _ rfl

/-- Witness for C4: a start-to-end run returns the result emitted by its
End node, which is also the last completed-end entry of its trace. -/
theorem run_final_output_witness :
    (some (Value.vStr "done") : Option Value) =
      lastEndResult
        [⟨"S", "start", "completed", [], none⟩,
         ⟨"E", "end", "completed", [("result", .vStr "done")], none⟩] :=
  run_final_output
    ⟨fun t => t == "start" || t == "end",
     fun _ n _ => if n.type == "end" then .ok ([("result", .vStr "done")], none)
                  else .ok ([], none)⟩
    ⟨[⟨"S", "start", []⟩, ⟨"E", "end", []⟩], [⟨"S", "E", none⟩]⟩ [] _ _ (by decide)

/-- C3: when `execute_with_timeout` raises for a node (exception or
timeout), (1) the orchestrator records status `"failed"` with the error
message by invoking the callback exactly once for that node, does not
touch the context or the final-output candidate, marks the node executed,
and computes no successors for it — only that branch terminates; (2) every
other fresh, known, registered node id of the same wavefront is still
executed (its callback fires exactly once) regardless of the outcomes of
its siblings; (3) the run itself does not raise: once the start node is
found and the topological order is non-empty, `run` returns a value. -/
theorem node_failure_isolation :
    (∀ (env : ExecEnv) (g : WorkflowGraph) (st : RunState) (node_id : String)
        (node : Node) (msg : String),
        st.executed.contains node_id = false →
        g.get_node node_id = some node →
        env.registered node.type = true →
        env.exec node_id node st.ctx = .error msg →
        processNode env g st node_id =
          (⟨st.ctx, st.executed ++ [node_id], st.finalOutput,
            st.events ++ [⟨node_id, node.type, "failed", [], some msg⟩]⟩, [])) ∧
    (∀ (env : ExecEnv) (g : WorkflowGraph) (st : RunState) (ids : List String)
        (x : String) (node : Node),
        x ∈ ids →
        st.executed.contains x = false →
        g.get_node x = some node →
        env.registered node.type = true →
        ((processWavefront env g st ids).1.events.countP (fun e => e.node_id == x)) =
          st.events.countP (fun e => e.node_id == x) + 1) ∧
    (∀ (env : ExecEnv) (doc : WorkflowDoc) (inputs : List (String × Value))
        (s : Node) (f : String),
        findStart (mkGraph doc) = some s →
        (mkGraph doc).get_topo_sort.head? = some f →
        ∃ evs v, run env doc inputs = (evs, Except.ok v)) := by
  refine ⟨?_, ?_, ?_⟩
  · intro env g st node_id node msg hfresh hnode hreg hexec
    unfold processNode
    rw [hfresh, hnode]
    simp only [hreg, Bool.not_true, Bool.false_eq_true, if_false, reduceIte, hexec]
  · intro env g st ids x node hmem hfresh hnode hreg
    exact processWavefront_count_fresh env g x node hnode hreg ids st hmem hfresh
  · intro env doc inputs s f hs hf
    simp only [run, hs, hf]
    exact ⟨_, _, rfl⟩

/-- Witness for C3: in a one-wavefront graph `["B", "D"]` where executing
`B` raises `"boom"`, processing `B` records exactly the failed event with
no successors, the sibling `D` still gets its one callback, and a
start-to-end run returns. -/
theorem node_failure_isolation_witness :
    processNode
        ⟨fun t => t == "start" || t == "llm" || t == "end",
         fun id _ _ => if id == "B" then .error "boom" else .ok ([], none)⟩
        (mkGraph ⟨[⟨"A", "llm", []⟩, ⟨"B", "llm", []⟩, ⟨"D", "llm", []⟩], []⟩)
        ⟨emptyCtx, [], none, []⟩ "B" =
      (⟨emptyCtx, ["B"], none, [⟨"B", "llm", "failed", [], some "boom"⟩]⟩, []) ∧
    ((processWavefront
        ⟨fun t => t == "start" || t == "llm" || t == "end",
         fun id _ _ => if id == "B" then .error "boom" else .ok ([], none)⟩
        (mkGraph ⟨[⟨"A", "llm", []⟩, ⟨"B", "llm", []⟩, ⟨"D", "llm", []⟩], []⟩)
        ⟨emptyCtx, [], none, []⟩ ["B", "D"]).1.events.countP
          (fun e => e.node_id == "D")) = 1 ∧
    (∃ evs v,
      run ⟨fun t => t == "start" || t == "llm" || t == "end",
           fun id _ _ => if id == "B" then .error "boom" else .ok ([], none)⟩
          ⟨[⟨"S", "start", []⟩, ⟨"E", "end", []⟩], [⟨"S", "E", none⟩]⟩ [] =
        (evs, Except.ok v)) := by
  refine ⟨?_, ?_, ?_⟩
  · exact node_failure_isolation.1 _ _ _ "B" ⟨"B", "llm", []⟩ "boom"
      (by decide) (by decide) (by decide) rfl
  · exact node_failure_isolation.2.1 _ _ _ ["B", "D"] "D" ⟨"D", "llm", []⟩
      (by decide) (by decide) (by decide) (by decide)
  · exact node_failure_isolation.2.2 _ _ [] ⟨"S", "start", []⟩ "S"
      (by decide) (by decide)

/-- C2 (amended): a node whose type has no registered executor is skipped
entirely — a warning is logged and it produces no outputs, no error and no
branch, and the run does not fail, but contrary to the claim its successors
are not scheduled, the node-completion callback is not invoked for it, and
it is not added to the executed set: processing it leaves the run state
unchanged and contributes no successor ids. -/
theorem unregistered_node_skip (env : ExecEnv) (g : WorkflowGraph)
    (st : RunState) (node_id : String) (node : Node)
    (hfresh : st.executed.contains node_id = false)
    (hnode : g.get_node node_id = some node)
    (hreg : env.registered node.type = false) :
    processNode env g st node_id = (st, []) := by
  unfold processNode
  rw [hfresh, hnode]
  simp [hreg]

/-- Counterexample for C2 as stated: in `S → U → E` where type
`"mystery"` of `U` has no registered executor, the run completes without
failing, but no callback is ever invoked for `U`, and `E` — the successor
of `U` over its outgoing edge — is never scheduled or executed, although
the claim promises both. -/
theorem unregistered_node_counterexample :
    run ⟨fun t => t == "start" || t == "end",
         fun _ _ _ => .ok ([], none)⟩
        ⟨[⟨"S", "start", []⟩, ⟨"U", "mystery", []⟩, ⟨"E", "end", []⟩],
         [⟨"S", "U", none⟩, ⟨"U", "E", none⟩]⟩ [] =
      ([⟨"S", "start", "completed", [], none⟩], .ok none) ∧
    (mkGraph ⟨[⟨"S", "start", []⟩, ⟨"U", "mystery", []⟩, ⟨"E", "end", []⟩],
              [⟨"S", "U", none⟩, ⟨"U", "E", none⟩]⟩).adj "U" = ["E"] := by
  constructor
  · decide
  · decide

/-- Witness for C2 (amended) at a concrete unregistered node. -/
theorem unregistered_node_skip_witness :
    processNode ⟨fun t => t == "start" || t == "end", fun _ _ _ => .ok ([], none)⟩
        (mkGraph ⟨[⟨"U", "mystery", []⟩], []⟩)
        ⟨emptyCtx, [], none, []⟩ "U" = (⟨emptyCtx, [], none, []⟩, []) :=
  unregistered_node_skip _ _ _ _ ⟨"U", "mystery", []⟩ (by decide) (by decide) (by decide)

end TgoWorkflow
